import Mathlib

/-!
Verification development for the wa-claude bridge.

The definitions below are a shallow embedding of the orchestration core of
the repository:

* `src/claude-session.js` (`ClaudeSession`): the per-project session that
  wraps the agent backend's streaming `query()` call — modelled by the state
  type `CS`, the labelled step relation `csStep`, and the pure helper
  functions (`csBufferText`, `csFlushBuffer`, `csInterrupt`,
  `csResolvePendingApproval`, `handleToolApproval`).
* `src/session-manager.js` (`SessionManager`): the registry of sessions —
  modelled by `Registry` and the `sm*` operations.
* `src/command-router.js` (`CommandRouter`): inbound classification —
  modelled by `routerHandle` / `handleCommand` / `handleButtonReply`.

JavaScript's single-threaded cooperative scheduling means every registry and
session mutation between two suspension points is atomic; state-mutating code
paths are therefore embedded as pure state-transition functions, and the
asynchronous interleavings of a running query are embedded as sequences of
labelled steps (`Step`).  External I/O (WhatsApp sends, the backend `send`
invocation, promise resolution) is recorded in an explicit effect trace
(`Effect`) instead of being performed.
-/

namespace WaClaude

/-- `config.claude.allowedTools` from src/config.js: tools auto-approved
without relaying to WhatsApp. -/
def allowedTools : List String :=
  ["Read", "Write", "Edit", "Glob", "Grep",
   "WebFetch", "WebSearch", "NotebookEdit"]

/-- `config.claude.streamBufferMs` from src/config.js (debounce window). -/
def streamBufferMs : Nat := 3000

/-- JavaScript `String.prototype.trim()`: strip leading and trailing
whitespace.  Defined over the character list so that it is computable by
the kernel (the library's `String.trim` is extensionally the same but is
implemented with well-founded recursion). -/
def jsTrim (s : String) : String :=
  ⟨((s.data.dropWhile Char.isWhitespace).reverse.dropWhile
      Char.isWhitespace).reverse⟩

/-- JavaScript `String.prototype.toLowerCase()` (ASCII case folding, which
is all the project names and commands of this repository use). -/
def jsToLower (s : String) : String := ⟨s.data.map Char.toLower⟩

/-- JavaScript `String.prototype.slice(0, n)`. -/
def jsTake (s : String) (n : Nat) : String := ⟨s.data.take n⟩

/-- JavaScript `String.prototype.slice(n)`. -/
def jsDrop (s : String) (n : Nat) : String := ⟨s.data.drop n⟩

/-- JavaScript `a.startsWith(b)`. -/
def jsStartsWith (a b : String) : Bool := b.data.isPrefixOf a.data

def splitWsAux : List Char → List Char → List String
  | [], acc => if acc.isEmpty then [] else [⟨acc.reverse⟩]
  | c :: rest, acc =>
      if c.isWhitespace then
        if acc.isEmpty then splitWsAux rest []
        else ⟨acc.reverse⟩ :: splitWsAux rest []
      else splitWsAux rest (c :: acc)

/-- JavaScript `text.split(/\s+/)` for text with no leading whitespace
(the only way the router calls it: the input was trimmed first): the
maximal whitespace-free fields in order. -/
def splitWs (s : String) : List String := splitWsAux s.data []

/-- The structured input of a tool-use request.  The SDK hands
`_handleToolApproval` an opaque JSON object; the two projections the code
uses are `input.command` (read when the tool is Bash) and
`JSON.stringify(input)` (read for every other tool). -/
structure ToolInput where
  command : String
  jsonRepr : String
  deriving Repr, DecidableEq

/-- The decision value returned by the `canUseTool` callback
(`_handleToolApproval` in src/claude-session.js): either
`{ behavior: 'allow', updatedInput }` or
`{ behavior: 'deny', message, interrupt }`. -/
inductive ToolDecision where
  | allow (updatedInput : ToolInput)
  | deny (message : String) (interruptQuery : Bool)
  deriving Repr, DecidableEq

/-- Events emitted by a `ClaudeSession` (the `this.emit(...)` calls in
src/claude-session.js). -/
inductive SEvent where
  | textChunk (text : String)
  | toolStart (toolName : String) (description : String)
  | approvalNeeded (toolName : String) (description : String)
  | done
  | errorEv (message : String)
  | interrupted
  deriving Repr, DecidableEq

/-- The mutable state of one `ClaudeSession`
(constructor fields of src/claude-session.js).

`hasAbortController` models `_abortController !== null`, `aborted` models
`_abortController.signal.aborted`, `pendingApproval` models
`_pendingApproval !== null` (the slot holds at most one resolve/reject pair
by construction — it is a single field), and `bufferTimer` models
`_bufferTimer !== null`. -/
structure CS where
  sessionId : Option String
  isActive : Bool
  hasAbortController : Bool
  aborted : Bool
  pendingApproval : Bool
  textBuffer : String
  fullResponse : String
  bufferTimer : Bool
  deriving Repr, DecidableEq

/-- A freshly constructed `ClaudeSession` (`new ClaudeSession(...)`):
`_sessionId = null`, `_pendingApproval = null`, `_isActive = false`,
empty buffers, no abort controller, no timer. -/
def initCS : CS :=
  { sessionId := none, isActive := false, hasAbortController := false,
    aborted := false, pendingApproval := false, textBuffer := "",
    fullResponse := "", bufferTimer := false }

/-- `_bufferText(text)`: append to the buffer and (re)arm the debounce
timer (`clearTimeout` + `setTimeout`). -/
def csBufferText (s : CS) (text : String) : CS :=
  { s with textBuffer := s.textBuffer ++ text, bufferTimer := true }

/-- `_flushBuffer()`: cancel the timer, and if the trimmed buffer is
non-empty emit it as one `text-chunk` and clear the buffer. -/
def csFlushBuffer (s : CS) : CS × List SEvent :=
  let t := jsTrim s.textBuffer
  if t = "" then ({ s with bufferTimer := false }, [])
  else ({ s with bufferTimer := false, textBuffer := "" }, [SEvent.textChunk t])

/-- `resolvePendingApproval(approved)`: resolve and clear the pending
approval if one exists; the returned Bool is the function's return value
(`false` when nothing was pending). -/
def csResolvePendingApproval (s : CS) : CS × Bool :=
  if s.pendingApproval then ({ s with pendingApproval := false }, true)
  else (s, false)

/-- `interrupt()`: abort the controller if one exists, and reject-and-clear
any pending approval.  Total — it never throws, and is a no-op on an idle
session (no controller, nothing pending). -/
def csInterrupt (s : CS) : CS :=
  let s1 := if s.hasAbortController then { s with aborted := true } else s
  if s1.pendingApproval then { s1 with pendingApproval := false } else s1

/-- `_describeToolUse(toolName, input)` from src/claude-session.js. -/
def describeToolUse (toolName : String) (input : ToolInput) : String :=
  if toolName = "Read" then "Reading " ++ input.command
  else if toolName = "Write" then "Writing " ++ input.command
  else if toolName = "Edit" then "Editing " ++ input.command
  else if toolName = "Bash" then "Running: " ++ jsTake input.command 80
  else if toolName = "Glob" then "Searching for " ++ input.command
  else if toolName = "Grep" then
    "Searching for \"" ++ jsTake input.command 40 ++ "\""
  else if toolName = "WebFetch" then "Fetching " ++ input.command
  else "Using " ++ toolName

/-- The human-readable description built by `_handleToolApproval` for a
non-allow-listed tool: backticked `input.command` for Bash, otherwise the
tool name with the first 200 characters of the JSON serialization. -/
def approvalDescription (toolName : String) (input : ToolInput) : String :=
  if toolName = "Bash" then "`" ++ input.command ++ "`"
  else toolName ++ ": " ++ jsTake input.jsonRepr 200

/-- The observable outcome of one `_handleToolApproval` invocation:
whether a `PendingApproval` was created, what was emitted, and the decision
eventually returned to the backend. -/
structure ApprovalOutcome where
  createdPending : Bool
  emitted : List SEvent
  decision : ToolDecision
  deriving Repr, DecidableEq

/-- `_handleToolApproval(toolName, input, signal)` from
src/claude-session.js, parametrised by `resolution`: the boolean the
suspended promise is eventually resolved with (rejection paths — interrupt
or signal abort — are modelled on the step relation instead, since they
make the callback throw rather than return a decision).

Allow-listed tools return `{ behavior: 'allow', updatedInput: input }`
immediately, creating no `PendingApproval` and emitting nothing.  Other
tools create the `PendingApproval`, emit `approval-needed` with the
description, and suspend; on `true` the original input is passed through
unmodified, on `false` a structured denial with `interrupt: false` is
returned. -/
def handleToolApproval (toolName : String) (input : ToolInput)
    (resolution : Bool) : ApprovalOutcome :=
  if allowedTools.contains toolName then
    { createdPending := false, emitted := [],
      decision := ToolDecision.allow input }
  else
    { createdPending := true,
      emitted := [SEvent.approvalNeeded toolName
                    (approvalDescription toolName input)],
      decision :=
        if resolution then ToolDecision.allow input
        else ToolDecision.deny "User denied this action via WhatsApp." false }

/-- How the `for await` loop of `send()` terminated: `normal` covers
exhaustion of the stream (and the `aborted` break check), `thrown e`
covers the `catch` block with an error carrying `e.name` and `e.message`. -/
inductive TermCause where
  | normal
  | thrown (errName : String) (errMsg : String)
  deriving Repr, DecidableEq

/-- Labelled steps of one session's query lifecycle, each corresponding to
one atomic (suspension-point-free) code region of src/claude-session.js. -/
inductive Step where
  /-- The synchronous prologue of `send()`: set `_isActive`, reset the
  accumulators, create a fresh `AbortController`. -/
  | sendStart
  /-- A `text` content block of an `assistant` message: accumulate into
  `_fullResponse` and the debounce buffer. -/
  | recvText (text : String)
  /-- A `tool_use` content block: emit the synchronous `tool-start`
  notification (not buffered). -/
  | toolUse (toolName : String) (input : ToolInput)
  /-- The backend invokes `canUseTool` (`_handleToolApproval`) for a tool;
  for a non-allow-listed tool this creates the `PendingApproval`. -/
  | approvalRequest (toolName : String) (input : ToolInput)
  /-- `resolvePendingApproval(approved)` is called from outside. -/
  | approvalResolve (approved : Bool)
  /-- `interrupt()` is called from outside. -/
  | interruptCall
  /-- A `result` message with `subtype: 'success'`: possibly the
  result-text fallback emission, then `done`. -/
  | recvResult (resultText : String)
  /-- A `result` message with an error subtype: emits `error`. -/
  | recvResultError (errMsg : String)
  /-- The `catch`/`finally` epilogue of `send()`: classify the
  termination (signal-state check first), flush the buffer, clear
  `_isActive` and the controller. -/
  | sendEnd (term : TermCause)
  deriving Repr, DecidableEq

/-- The `catch` block of `send()`: `err.name === 'AbortError' ||
this._abortController.signal.aborted` selects the `interrupted` event,
anything else the `error` event. -/
def classifyTermination (s : CS) : TermCause → List SEvent
  | TermCause.normal => []
  | TermCause.thrown errName errMsg =>
      if errName = "AbortError" ∨ s.aborted then [SEvent.interrupted]
      else [SEvent.errorEv errMsg]

/-- The synchronous prologue of `send()`: `_isActive = true`, accumulators
reset, fresh `AbortController`. -/
def csSendStart (s : CS) : CS :=
  { s with isActive := true, fullResponse := "", textBuffer := "",
           hasAbortController := true, aborted := false }

/-- The `finally` epilogue of `send()` applied after the buffer flush:
`_isActive = false`, `_currentQuery = null`, `_abortController = null`. -/
def csSendSettle (s : CS) : CS :=
  { s with isActive := false, hasAbortController := false }

/-- One step of the session machine.  `none` means the step is not enabled
in this state.  Guards record where the code structure (or the backend
collaborator's contract, §6 of the spec) forbids the step:

* stream-message steps (`recvText`, `toolUse`, `approvalRequest`,
  `recvResult`, `recvResultError`, `sendEnd`) require `isActive` (they occur
  inside `send()`) and `pendingApproval = false` — the backend awaits the
  `canUseTool` promise before proceeding with the stream, and `interrupt()`
  clears the slot synchronously before the abort can surface;
* `sendStart` requires `isActive = false` (`SessionManager.relay` rejects
  input while the previous query runs);
* `approvalResolve` requires a pending approval (otherwise
  `resolvePendingApproval` is a pure no-op returning false, modelled
  separately by `csResolvePendingApproval`);
* `interruptCall` is enabled in every state. -/
def csStep (s : CS) : Step → Option (CS × List SEvent)
  | Step.sendStart =>
      if s.isActive then none else some (csSendStart s, [])
  | Step.recvText t =>
      if s.isActive ∧ ¬ s.pendingApproval ∧ ¬ s.aborted then
        some (csBufferText { s with fullResponse := s.fullResponse ++ t } t, [])
      else none
  | Step.toolUse toolName input =>
      if s.isActive ∧ ¬ s.pendingApproval ∧ ¬ s.aborted then
        some (s, [SEvent.toolStart toolName (describeToolUse toolName input)])
      else none
  | Step.approvalRequest toolName input =>
      if s.isActive ∧ ¬ s.pendingApproval ∧ ¬ s.aborted then
        if allowedTools.contains toolName then some (s, [])
        else
          some ({ s with pendingApproval := true },
            [SEvent.approvalNeeded toolName (approvalDescription toolName input)])
      else none
  | Step.approvalResolve _ =>
      if s.pendingApproval then
        some ({ s with pendingApproval := false }, [])
      else none
  | Step.interruptCall => some (csInterrupt s, [])
  | Step.recvResult resultText =>
      if s.isActive ∧ ¬ s.pendingApproval ∧ ¬ s.aborted then
        if jsTrim s.fullResponse = "" ∧ jsTrim resultText ≠ "" then
          some ({ s with fullResponse := resultText },
            [SEvent.textChunk resultText, SEvent.done])
        else some (s, [SEvent.done])
      else none
  | Step.recvResultError errMsg =>
      if s.isActive ∧ ¬ s.pendingApproval ∧ ¬ s.aborted then
        some (s, [SEvent.errorEv errMsg])
      else none
  | Step.sendEnd term =>
      if s.isActive ∧ ¬ s.pendingApproval then
        some (csSendSettle (csFlushBuffer s).1,
          classifyTermination s term ++ (csFlushBuffer s).2)
      else none

/-- Run a list of steps from a state, accumulating emitted events.
A disabled step makes the whole run undefined. -/
def csRun (s : CS) : List Step → Option (CS × List SEvent)
  | [] => some (s, [])
  | st :: rest =>
      match csStep s st with
      | none => none
      | some (s1, evs) =>
          match csRun s1 rest with
          | none => none
          | some (s2, evs2) => some (s2, evs ++ evs2)

/-- The C2 invariant as a predicate: the pending-approval slot is occupied
only while the session is RUNNING. -/
def pendingOnlyWhileRunning (s : CS) : Prop :=
  s.pendingApproval = true → s.isActive = true

instance (s : CS) : Decidable (pendingOnlyWhileRunning s) := by
  unfold pendingOnlyWhileRunning; infer_instance

theorem csStep_preserves_pendingOnlyWhileRunning {s s1 : CS} {st : Step}
    {evs : List SEvent} (hinv : pendingOnlyWhileRunning s)
    (h : csStep s st = some (s1, evs)) : pendingOnlyWhileRunning s1 := by
  unfold pendingOnlyWhileRunning at hinv ⊢
  cases st <;>
    simp only [csStep, csSendStart, csSendSettle, csInterrupt, csBufferText,
      csFlushBuffer] at h <;>
    (try split at h) <;> (try split at h) <;>
    first
    | exact Option.noConfusion h
    | (rw [Option.some.injEq, Prod.mk.injEq] at h
       obtain ⟨h1, h2⟩ := h
       subst h1
       intro hp
       simp_all)

theorem csRun_preserves_pendingOnlyWhileRunning {s s1 : CS}
    {steps : List Step} {evs : List SEvent}
    (hinv : pendingOnlyWhileRunning s)
    (h : csRun s steps = some (s1, evs)) : pendingOnlyWhileRunning s1 := by
  induction steps generalizing s evs with
  | nil =>
      simp only [csRun, Option.some.injEq, Prod.mk.injEq] at h
      rw [← h.1]; exact hinv
  | cons st rest ih =>
      simp only [csRun] at h
      cases hstep : csStep s st with
      | none => simp [hstep] at h
      | some p =>
          obtain ⟨s2, evs2⟩ := p
          simp only [hstep] at h
          cases hrun : csRun s2 rest with
          | none => simp [hrun] at h
          | some q =>
              obtain ⟨q1, q2⟩ := q
              simp only [hrun, Option.some.injEq, Prod.mk.injEq] at h
              obtain ⟨h1, _⟩ := h
              subst h1
              exact ih (csStep_preserves_pendingOnlyWhileRunning hinv hstep)
                hrun

theorem csFlushBuffer_events_shape (s : CS) :
    (csFlushBuffer s).2 = [] ∨
      ∃ t, (csFlushBuffer s).2 = [SEvent.textChunk t] := by
  unfold csFlushBuffer
  by_cases h : jsTrim s.textBuffer = "" <;> simp [h]

/-- **C2** — for every session and every reachable state, at most one
PendingApproval exists on the session at any instant (the
`_pendingApproval` slot is a single field, so `CS.pendingApproval` can
record at most one outstanding approval, and `csStep` only sets it when it
is clear), and the slot is occupied only while the session is RUNNING: in
every state reachable from a fresh session, `pendingApproval` implies
`isActive`, and equivalently once `send` has settled back to IDLE —
normally, by error, or by abort — the slot is empty. -/
theorem pendingApproval_only_while_running {steps : List Step} {s : CS}
    {evs : List SEvent} (h : csRun initCS steps = some (s, evs)) :
    (s.pendingApproval = true → s.isActive = true) ∧
    (s.isActive = false → s.pendingApproval = false) := by
  have hinit : pendingOnlyWhileRunning initCS := by
    intro hpa; simp [initCS] at hpa
  have hinv := csRun_preserves_pendingOnlyWhileRunning hinit h
  refine ⟨hinv, fun hIdle => ?_⟩
  cases hpa : s.pendingApproval with
  | false => rfl
  | true => rw [hinv hpa] at hIdle; exact absurd hIdle (by simp)

/-- Step sequence used to exercise `pendingApproval_only_while_running`:
a query is started, a Bash approval is requested, the session is
interrupted, and the query terminates with an AbortError. -/
def c2DemoSteps : List Step :=
  [Step.sendStart,
   Step.approvalRequest "Bash" { command := "ls", jsonRepr := "x" },
   Step.interruptCall,
   Step.sendEnd (TermCause.thrown "AbortError" "The operation was aborted")]

theorem pendingApproval_only_while_running_witness :
    ∃ p : CS × List SEvent,
      csRun initCS c2DemoSteps = some p ∧
      (p.1.pendingApproval = true → p.1.isActive = true) ∧
      (p.1.isActive = false → p.1.pendingApproval = false) ∧
      p.1.isActive = false ∧ p.1.pendingApproval = false := by
  have h : csRun initCS c2DemoSteps =
      some ({ sessionId := none, isActive := false,
              hasAbortController := false, aborted := true,
              pendingApproval := false, textBuffer := "",
              fullResponse := "", bufferTimer := false },
            [SEvent.approvalNeeded "Bash" "`ls`", SEvent.interrupted]) := by
    decide
  have hc := pendingApproval_only_while_running h
  exact ⟨_, h, hc.1, hc.2, rfl, rfl⟩

/-- **C3** — the tool-permission callback `_handleToolApproval`: a tool on
the static allow-list gets an immediate allow decision with the input
passed through unmodified and no PendingApproval; a tool not on the list
creates a PendingApproval and emits an `approval-needed` notification
carrying the human-readable description; when the user approves, the
decision is allow with the original input unmodified; when the user
denies, the decision is a structured denial whose `interrupt` flag is
`false`, so it does not abort the overall query. -/
theorem handleToolApproval_spec (toolName : String) (input : ToolInput)
    (resolution : Bool) :
    (allowedTools.contains toolName = true →
      handleToolApproval toolName input resolution =
        { createdPending := false, emitted := [],
          decision := ToolDecision.allow input }) ∧
    (allowedTools.contains toolName = false →
      (handleToolApproval toolName input resolution).createdPending = true ∧
      (handleToolApproval toolName input resolution).emitted =
        [SEvent.approvalNeeded toolName (approvalDescription toolName input)] ∧
      (resolution = true →
        (handleToolApproval toolName input resolution).decision =
          ToolDecision.allow input) ∧
      (resolution = false →
        (handleToolApproval toolName input resolution).decision =
          ToolDecision.deny "User denied this action via WhatsApp." false)) := by
  unfold handleToolApproval
  cases hA : allowedTools.contains toolName <;> simp [hA]

theorem handleToolApproval_spec_witness :
    allowedTools.contains "Read" = true ∧
    handleToolApproval "Read" { command := "f.txt", jsonRepr := "x" } true =
      { createdPending := false, emitted := [],
        decision := ToolDecision.allow { command := "f.txt", jsonRepr := "x" } } ∧
    allowedTools.contains "Bash" = false ∧
    (handleToolApproval "Bash" { command := "rm f", jsonRepr := "y" } false).decision =
      ToolDecision.deny "User denied this action via WhatsApp." false :=
  ⟨by decide,
   (handleToolApproval_spec "Read" { command := "f.txt", jsonRepr := "x" } true).1
     (by decide),
   by decide,
   (((handleToolApproval_spec "Bash" { command := "rm f", jsonRepr := "y" } false).2
     (by decide)).2.2.2) rfl⟩

/-- **C4** — termination classification of `send()`: when the query
terminates with a thrown error while the abort signal is set, the session
settles to IDLE and emits `interrupted` — whatever the error's name, since
the `catch` checks `err.name === 'AbortError' || signal.aborted` — and no
`error` event is emitted; a stream error without an abort signal emits
`error` carrying the message (and no `interrupted`); and `interrupt()`
during an outstanding PendingApproval rejects-and-clears the approval,
sets the abort signal, and the subsequent termination is classified as
`interrupted`, not `error`. -/
theorem interrupted_vs_error_classification (s : CS) (errName errMsg : String) :
    (s.isActive = true → s.pendingApproval = false → s.aborted = true →
      ∃ p : CS × List SEvent,
        csStep s (Step.sendEnd (TermCause.thrown errName errMsg)) = some p ∧
        p.2.head? = some SEvent.interrupted ∧
        (∀ m, SEvent.errorEv m ∉ p.2) ∧ p.1.isActive = false) ∧
    (s.isActive = true → s.pendingApproval = false → s.aborted = false →
      errName ≠ "AbortError" →
      ∃ p : CS × List SEvent,
        csStep s (Step.sendEnd (TermCause.thrown errName errMsg)) = some p ∧
        p.2.head? = some (SEvent.errorEv errMsg) ∧
        SEvent.interrupted ∉ p.2 ∧ p.1.isActive = false) ∧
    (s.isActive = true → s.pendingApproval = true → s.hasAbortController = true →
      ∃ p : CS × List SEvent,
        csStep s Step.interruptCall = some p ∧
        p.1.pendingApproval = false ∧ p.1.aborted = true ∧
        ∃ q : CS × List SEvent,
          csStep p.1 (Step.sendEnd (TermCause.thrown errName errMsg)) = some q ∧
          q.2.head? = some SEvent.interrupted ∧
          (∀ m, SEvent.errorEv m ∉ q.2) ∧ q.1.isActive = false) := by
  refine ⟨fun hA hP hab => ?_, fun hA hP hab hname => ?_, fun hA hP hctl => ?_⟩
  · have hstep : csStep s (Step.sendEnd (TermCause.thrown errName errMsg)) =
        some (csSendSettle (csFlushBuffer s).1,
          classifyTermination s (TermCause.thrown errName errMsg) ++
            (csFlushBuffer s).2) := by
      simp [csStep, hA, hP]
    refine ⟨_, hstep, ?_, ?_, by simp [csSendSettle]⟩
    · simp [classifyTermination, hab]
    · intro m
      rcases csFlushBuffer_events_shape s with hf | ⟨t, hf⟩ <;>
        simp [classifyTermination, hab, hf]
  · have hstep : csStep s (Step.sendEnd (TermCause.thrown errName errMsg)) =
        some (csSendSettle (csFlushBuffer s).1,
          classifyTermination s (TermCause.thrown errName errMsg) ++
            (csFlushBuffer s).2) := by
      simp [csStep, hA, hP]
    refine ⟨_, hstep, ?_, ?_, by simp [csSendSettle]⟩
    · simp [classifyTermination, hab, hname]
    · rcases csFlushBuffer_events_shape s with hf | ⟨t, hf⟩ <;>
        simp [classifyTermination, hab, hname, hf]
  · have hA1 : (csInterrupt s).isActive = true := by
      simp [csInterrupt, hctl, hP, hA]
    have hP1 : (csInterrupt s).pendingApproval = false := by
      simp [csInterrupt, hctl, hP]
    have hab1 : (csInterrupt s).aborted = true := by
      simp [csInterrupt, hctl, hP]
    refine ⟨(csInterrupt s, []), rfl, hP1, hab1, ?_⟩
    have hstep : csStep (csInterrupt s)
        (Step.sendEnd (TermCause.thrown errName errMsg)) =
        some (csSendSettle (csFlushBuffer (csInterrupt s)).1,
          classifyTermination (csInterrupt s)
              (TermCause.thrown errName errMsg) ++
            (csFlushBuffer (csInterrupt s)).2) := by
      simp [csStep, hA1, hP1]
    refine ⟨_, hstep, ?_, ?_, by simp [csSendSettle]⟩
    · simp [classifyTermination, hab1]
    · intro m
      rcases csFlushBuffer_events_shape (csInterrupt s) with hf | ⟨t, hf⟩ <;>
        simp [classifyTermination, hab1, hf]

/-- A RUNNING session with an outstanding Bash approval, as produced by
`csRun initCS` on sendStart followed by an approval request. -/
def c4RunningWithPending : CS :=
  { sessionId := none, isActive := true, hasAbortController := true,
    aborted := false, pendingApproval := true, textBuffer := "",
    fullResponse := "", bufferTimer := false }

theorem interrupted_vs_error_classification_witness :
    (c4RunningWithPending.isActive = true ∧
     c4RunningWithPending.pendingApproval = true ∧
     c4RunningWithPending.hasAbortController = true) ∧
    ∃ p : CS × List SEvent,
      csStep c4RunningWithPending Step.interruptCall = some p ∧
      p.1.pendingApproval = false ∧ p.1.aborted = true ∧
      ∃ q : CS × List SEvent,
        csStep p.1 (Step.sendEnd (TermCause.thrown "AbortError" "aborted")) =
          some q ∧
        q.2.head? = some SEvent.interrupted ∧
        (∀ m, SEvent.errorEv m ∉ q.2) ∧ q.1.isActive = false :=
  ⟨⟨rfl, rfl, rfl⟩,
   (interrupted_vs_error_classification c4RunningWithPending "AbortError"
     "aborted").2.2 rfl rfl rfl⟩

/-- The state of a session at the start of a debounce window: `send()` has
just reset the text buffer (`this._textBuffer = ''`). -/
def windowStart : CS := csSendStart initCS

/-- One debounce window of `_bufferText`/`_flushBuffer`: the arrivals are
appended to the buffer in arrival order (each rearms the timer, so the
flush fires only once, after the last arrival), then the timer fires
`_flushBuffer()`.  The result is the list of events emitted at the
flush. -/
def windowEmissions (arrivals : List String) : List SEvent :=
  (csFlushBuffer (arrivals.foldl csBufferText windowStart)).2

theorem string_join_cons (a : String) (l : List String) :
    String.join (a :: l) = a ++ String.join l := by
  apply String.ext
  simp [String.join_eq, String.data_append]

theorem string_join_nil : String.join [] = "" := by
  apply String.ext
  simp [String.join_eq]

theorem foldl_csBufferText_textBuffer (l : List String) (s : CS) :
    (l.foldl csBufferText s).textBuffer = s.textBuffer ++ String.join l := by
  induction l generalizing s with
  | nil => simp [string_join_nil]
  | cons a t ih =>
      simp only [List.foldl_cons, ih, csBufferText, string_join_cons,
        String.append_assoc]

/-- **C6 (counterexample)** — the claim "the chunk emitted when the flush
fires equals the concatenation of those arrivals in arrival order" fails
on arrivals with trailing (or leading) whitespace: `_flushBuffer` emits
`this._textBuffer.trim()`, so for the single arrival `"a "` the emitted
chunk is `"a"`, not the concatenation `"a "`. -/
theorem flush_concatenation_counterexample :
    windowEmissions ["a "] = [SEvent.textChunk "a"] ∧
    windowEmissions ["a "] ≠ [SEvent.textChunk (String.join ["a "])] := by
  constructor <;> decide

/-- **C6 (amended)** — within one debounce window, the flush emits the
whitespace-trimmed concatenation of the arrivals in arrival order, as one
unfragmented chunk, exactly once (flushing again after the window emits
nothing); when the concatenation trims to empty — all-whitespace arrivals
— no chunk is emitted at all.  The debounce mechanism never reorders text:
the emitted chunk is built from the arrival-order concatenation. -/
theorem flush_emits_trimmed_concatenation (arrivals : List String) :
    windowEmissions arrivals =
      (if jsTrim (String.join arrivals) = "" then []
       else [SEvent.textChunk (jsTrim (String.join arrivals))]) ∧
    (csFlushBuffer
      (csFlushBuffer (arrivals.foldl csBufferText windowStart)).1).2 = [] := by
  have hB : (arrivals.foldl csBufferText windowStart).textBuffer =
      String.join arrivals := by
    rw [foldl_csBufferText_textBuffer]
    have h0 : windowStart.textBuffer = "" := rfl
    rw [h0]
    apply String.ext
    simp [String.data_append]
  constructor
  · unfold windowEmissions csFlushBuffer
    rw [hB]
    by_cases h : jsTrim (String.join arrivals) = "" <;> simp [h]
  · unfold csFlushBuffer
    by_cases h : jsTrim (String.join arrivals) = "" <;>
      simp [h, hB, show jsTrim "" = "" from rfl]

/-- A project listing entry `{ id, title, description }` as produced by
`getAvailableProjects` and consumed by `showProjectList` (also reused for
the `{ id, title, description }` rows of the kill/restart lists). -/
structure Project where
  id : String
  title : String
  description : String
  deriving Repr, DecidableEq

/-- The external collaborators of the registry and router: which resolved
project directories exist on disk (`existsSync`), the enumeration returned
by `getAvailableProjects`, and the process statistics and model name read
by `status()`. -/
structure Env where
  dirExists : String → Bool
  availableProjects : List Project
  uptimeSecs : Nat
  memMB : Nat
  model : String

/-- `config.projectRoot` from src/config.js. -/
def projectRoot : String := "C:\\Users\\bhara\\dev"

/-- `config.claude.permissionMode` from src/config.js. -/
def permissionMode : String := "acceptEdits"

/-- `resolveProjectDir(projectName)` from src/session-manager.js:
`config.projectOverrides` is empty in src/config.js, so this is
`path.resolve(config.projectRoot, projectName)`, embedded as
root-plus-separator concatenation (project names are plain relative
names). -/
def resolveProjectDir (projectName : String) : String :=
  projectRoot ++ "\\" ++ projectName

/-- `SessionManager` state: the `sessions` map (insertion-ordered, like a
JS `Map`) and `activeProject`.  Each map entry of the source holds
`{ session, processor, formatter }`; the processor and formatter carry no
state relevant to any property here, so an entry is modelled by the
session state alone. -/
structure Registry where
  sessions : List (String × CS)
  activeProject : Option String
  deriving Repr, DecidableEq

/-- The registry at process start: no sessions, no active project. -/
def initRegistry : Registry := { sessions := [], activeProject := none }

/-- Externally observable calls made by the registry and the router:
WhatsApp sends, and the session-method invocations whose targeting the
claims constrain.  `resolveCall p b` records
`sessions.get(p).session.resolvePendingApproval(b)`, `interruptCallE p`
records `session.interrupt()`, and `sendCall p text` records the
fire-and-forget `session.send(text)`. -/
inductive Effect where
  | sendMessage (text : String)
  | sendButtonsE (body : String)
  | sendListE (body : String) (rows : List Project)
  | resolveCall (project : String) (approved : Bool)
  | interruptCallE (project : String)
  | sendCall (project : String) (prompt : String)
  deriving Repr, DecidableEq

/-- The synchronous result of one registry/router operation: the new
registry state, the returned response string (`null` modelled as `none`),
and the trace of external calls made. -/
structure OpResult where
  state : Registry
  response : Option String
  effects : List Effect
  deriving Repr, DecidableEq

/-- `Map.set` on an existing key: replace the value in place, preserving
position. -/
def updateS : List (String × CS) → String → CS → List (String × CS)
  | [], _, _ => []
  | (ek, ev) :: t, k, v =>
      (if ek = k then (k, v) else (ek, ev)) :: updateS t k v

/-- `Map.delete` (keys are unique by construction, so removing every entry
with the key coincides with deleting the one entry). -/
def deleteS : List (String × CS) → String → List (String × CS)
  | [], _ => []
  | (ek, ev) :: t, k =>
      if ek ≠ k then (ek, ev) :: deleteS t k else deleteS t k

/-- `SessionManager.open(projectName)`. -/
def smOpen (env : Env) (r : Registry) (projectName : String) : OpResult :=
  let projectDir := resolveProjectDir projectName
  if ¬ env.dirExists projectDir then
    { state := r,
      response := some ("Project not found: \"" ++ projectName ++
        "\" — no directory at " ++ projectDir),
      effects := [] }
  else
    match r.sessions.lookup projectName with
    | some cs =>
        { state := { r with activeProject := some projectName },
          response := some ("Switched to " ++ projectName ++ " (" ++
            (if cs.isActive then "active" else "idle") ++ ")"),
          effects := [] }
    | none =>
        { state := { sessions := r.sessions ++ [(projectName, initCS)],
                     activeProject := some projectName },
          response := some ("Opened " ++ projectName ++
            " — Claude Code ready in " ++ projectDir ++
            ". Send a message to start."),
          effects := [] }

/-- `SessionManager.relay(text)`.  The acknowledgment send and the
asynchronous `session.send` invocation are recorded as effects; the
session's own state evolution during `send` is the step machine above. -/
def smRelay (r : Registry) (text : String) : OpResult :=
  match r.activeProject with
  | none =>
      { state := r,
        response := some "No active session. Use /open <project> to start one.",
        effects := [] }
  | some p =>
      match r.sessions.lookup p with
      | none =>
          { state := r,
            response := some "Session not found. Use /open <project> to start one.",
            effects := [] }
      | some cs =>
          if cs.isActive then
            { state := r,
              response := some (p ++
                " is still working on the previous message. Wait for it to finish or /cancel."),
              effects := [] }
          else
            { state := r, response := none,
              effects := [Effect.sendMessage "_Working on it..._",
                          Effect.sendCall p text] }

/-- `SessionManager.approveAction(approved)`. -/
def smApproveAction (r : Registry) (approved : Bool) : OpResult :=
  match r.activeProject with
  | none =>
      { state := r, response := some "No active session.", effects := [] }
  | some p =>
      match r.sessions.lookup p with
      | none =>
          { state := r, response := some "No active session.", effects := [] }
      | some cs =>
          let res := csResolvePendingApproval cs
          { state := { r with sessions := updateS r.sessions p res.1 },
            response := some (if res.2 then
                (if approved then "_Approved._" else "_Denied._")
              else "No pending approval to respond to."),
            effects := [Effect.resolveCall p approved] }

/-- `SessionManager.cancel()`. -/
def smCancel (r : Registry) : OpResult :=
  match r.activeProject with
  | none =>
      { state := r, response := some "No active session.", effects := [] }
  | some p =>
      match r.sessions.lookup p with
      | none =>
          { state := r, response := some "No active session.", effects := [] }
      | some cs =>
          if ¬ cs.isActive then
            { state := r,
              response := some (p ++ " is idle — nothing to cancel."),
              effects := [] }
          else
            { state := { r with sessions := updateS r.sessions p (csInterrupt cs) },
              response := some ("Cancelling " ++ p ++ "..."),
              effects := [Effect.interruptCallE p] }

/-- `SessionManager.kill(projectName)`. -/
def smKill (r : Registry) (projectName : String) : OpResult :=
  match r.sessions.lookup projectName with
  | none =>
      { state := r,
        response := some ("No session found for: " ++ projectName),
        effects := [] }
  | some cs =>
      { state :=
          { sessions := deleteS r.sessions projectName,
            activeProject :=
              if r.activeProject = some projectName then none
              else r.activeProject },
        response := some ("Killed session: " ++ projectName),
        effects := if cs.isActive then [Effect.interruptCallE projectName] else [] }

/-- `SessionManager.restart(projectName)`: `projectName || activeProject`
(the empty string is falsy in JS), then kill followed by open. -/
def smRestart (env : Env) (r : Registry) (projectName : String) : OpResult :=
  match (if projectName = "" then r.activeProject else some projectName) with
  | none =>
      { state := r,
        response := some "No project specified and no active session.",
        effects := [] }
  | some target =>
      if (r.sessions.lookup target).isSome then
        let k := smKill r target
        let o := smOpen env k.state target
        { state := o.state, response := o.response,
          effects := k.effects ++ o.effects }
      else
        { state := r,
          response := some ("No session found for: " ++ target ++
            ". Use /open " ++ target ++ " to create one."),
          effects := [] }

/-- One line of `SessionManager.list()`. -/
def sessionLine (active : Option String) (e : String × CS) : String :=
  (if active = some e.1 then "> " else "  ") ++ "*" ++ e.1 ++ "* — " ++
    (if e.2.isActive then "working" else "idle") ++
    (match e.2.sessionId with
     | some sid => if sid = "" then "" else " (" ++ jsTake sid 8 ++ "...)"
     | none => "")

/-- `SessionManager.list()`. -/
def smList (r : Registry) : OpResult :=
  if r.sessions.isEmpty then
    { state := r,
      response := some "No active sessions. Use /open <project> to start one.",
      effects := [] }
  else
    { state := r,
      response := some (String.intercalate "\n"
        ("*Active sessions:*\n" :: r.sessions.map (sessionLine r.activeProject))),
      effects := [] }

/-- `SessionManager.status()`. -/
def smStatus (env : Env) (r : Registry) : OpResult :=
  { state := r,
    response := some (String.intercalate "\n"
      ["*wa-claude status*",
       "Uptime: " ++ toString env.uptimeSecs ++ "s",
       "Memory: " ++ toString env.memMB ++ "MB",
       "Sessions: " ++ toString r.sessions.length,
       "Active: " ++ (match r.activeProject with | some p => p | none => "none"),
       "Model: " ++ env.model,
       "Permission: " ++ permissionMode]),
    effects := [] }

/-- `ClaudeSession.getFullResponse()`. -/
def csGetFullResponse (s : CS) : String :=
  if jsTrim s.fullResponse = "" then "(no recent output)"
  else jsTrim s.fullResponse

/-- `SessionManager.getFullOutput()`. -/
def smGetFullOutput (r : Registry) : OpResult :=
  match r.activeProject with
  | none =>
      { state := r, response := some "No active session.", effects := [] }
  | some p =>
      match r.sessions.lookup p with
      | none =>
          { state := r, response := some "(no recent output)", effects := [] }
      | some cs =>
          { state := r, response := some (csGetFullResponse cs), effects := [] }

/-- The registry operations named by the invariant claim. -/
inductive RegOp where
  | openOp (p : String)
  | relayOp (text : String)
  | approveOp (approved : Bool)
  | cancelOp
  | killOp (p : String)
  | restartOp (p : String)
  | listOp
  deriving Repr, DecidableEq

def applyRegOp (env : Env) (r : Registry) : RegOp → OpResult
  | RegOp.openOp p => smOpen env r p
  | RegOp.relayOp t => smRelay r t
  | RegOp.approveOp b => smApproveAction r b
  | RegOp.cancelOp => smCancel r
  | RegOp.killOp p => smKill r p
  | RegOp.restartOp p => smRestart env r p
  | RegOp.listOp => smList r

def runRegOps (env : Env) (r : Registry) : List RegOp → Registry
  | [] => r
  | op :: rest => runRegOps env (applyRegOp env r op).state rest

/-- The registry invariant of the claim: `activeProject` is empty or a
live key of `sessions`. -/
def activeOk (r : Registry) : Bool :=
  match r.activeProject with
  | none => true
  | some p => (r.sessions.lookup p).isSome

theorem lookup_updateS_isSome (m : List (String × CS)) (k q : String)
    (v : CS) : ((updateS m k v).lookup q).isSome = (m.lookup q).isSome := by
  induction m with
  | nil => rfl
  | cons e t ih =>
      obtain ⟨ek, ev⟩ := e
      simp only [updateS]
      split
      case isTrue he =>
        subst he
        by_cases hq : q = ek
        · simp [List.lookup, hq]
        · simp [List.lookup, beq_eq_false_iff_ne.mpr hq, ih]
      case isFalse he =>
        by_cases hq : q = ek
        · simp [List.lookup, hq]
        · simp [List.lookup, beq_eq_false_iff_ne.mpr hq, ih]

theorem lookup_updateS_ne (m : List (String × CS)) (k q : String) (v : CS)
    (hne : q ≠ k) : (updateS m k v).lookup q = m.lookup q := by
  induction m with
  | nil => rfl
  | cons e t ih =>
      obtain ⟨ek, ev⟩ := e
      simp only [updateS]
      split
      case isTrue he =>
        subst he
        simp [List.lookup, beq_eq_false_iff_ne.mpr hne, ih]
      case isFalse he =>
        by_cases hq : q = ek
        · simp [List.lookup, hq]
        · simp [List.lookup, beq_eq_false_iff_ne.mpr hq, ih]

theorem lookup_updateS_self (m : List (String × CS)) (k : String) (v cs : CS)
    (h : m.lookup k = some cs) : (updateS m k v).lookup k = some v := by
  induction m with
  | nil => simp [List.lookup] at h
  | cons e t ih =>
      obtain ⟨ek, ev⟩ := e
      simp only [updateS]
      split
      case isTrue he => subst he; simp [List.lookup]
      case isFalse he =>
        have hbeq : (k == ek) = false := by
          simp
          exact fun hc => he hc.symm
        simp only [List.lookup, hbeq] at h
        simp [List.lookup, hbeq, ih h]

theorem lookup_deleteS_self (m : List (String × CS)) (k : String) :
    (deleteS m k).lookup k = none := by
  induction m with
  | nil => rfl
  | cons e t ih =>
      obtain ⟨ek, ev⟩ := e
      simp only [deleteS]
      split
      case isTrue hne =>
        have hbeq : (k == ek) = false := by
          simp
          exact fun hc => hne hc.symm
        simp [List.lookup, hbeq, ih]
      case isFalse heq => exact ih

theorem lookup_deleteS_ne (m : List (String × CS)) (k q : String)
    (hne : q ≠ k) : (deleteS m k).lookup q = m.lookup q := by
  induction m with
  | nil => rfl
  | cons e t ih =>
      obtain ⟨ek, ev⟩ := e
      simp only [deleteS]
      split
      case isTrue hne2 =>
        by_cases hq : q = ek
        · simp [List.lookup, hq]
        · simp [List.lookup, beq_eq_false_iff_ne.mpr hq, ih]
      case isFalse heq =>
        have hek : ek = k := not_not.mp heq
        have hbeq : (q == ek) = false := by
          simp
          rw [hek]
          exact hne
        simp [List.lookup, hbeq, ih]

theorem activeOk_updateS (r : Registry) (k : String) (v : CS) :
    activeOk { r with sessions := updateS r.sessions k v } = activeOk r := by
  unfold activeOk
  cases r.activeProject with
  | none => rfl
  | some p => simp [lookup_updateS_isSome]

theorem lookup_append_right (m : List (String × CS)) (k : String) (v : CS)
    (h : m.lookup k = none) : (m ++ [(k, v)]).lookup k = some v := by
  induction m with
  | nil => simp [List.lookup]
  | cons e t ih =>
      obtain ⟨ek, ev⟩ := e
      by_cases hk : k = ek
      · simp [List.lookup, hk] at h
      · simp only [List.cons_append, List.lookup,
          beq_eq_false_iff_ne.mpr hk] at h ⊢
        exact ih h

theorem csInterrupt_pendingApproval (s : CS) :
    (csInterrupt s).pendingApproval = false := by
  unfold csInterrupt
  by_cases hc : s.hasAbortController <;> by_cases hp : s.pendingApproval <;>
    simp [hc, hp]

theorem csInterrupt_aborted (s : CS) (hc : s.hasAbortController = true) :
    (csInterrupt s).aborted = true := by
  unfold csInterrupt
  by_cases hp : s.pendingApproval <;> simp [hc, hp]

theorem smRelay_state (r : Registry) (t : String) : (smRelay r t).state = r := by
  unfold smRelay
  (repeat' split) <;> rfl

theorem smList_state (r : Registry) : (smList r).state = r := by
  unfold smList
  split <;> rfl

theorem activeOk_smOpen (env : Env) (r : Registry) (p : String)
    (h : activeOk r = true) : activeOk (smOpen env r p).state = true := by
  unfold smOpen
  by_cases hd : env.dirExists (resolveProjectDir p)
  · simp only [hd]
    cases hl : r.sessions.lookup p with
    | some cs => simp [activeOk, hl]
    | none => simp [activeOk, hl, lookup_append_right r.sessions p initCS hl]
  · simpa [hd] using h

theorem activeOk_mk_updateS (sessions : List (String × CS))
    (active : Option String) (k : String) (v : CS) :
    activeOk { sessions := updateS sessions k v, activeProject := active } =
      activeOk { sessions := sessions, activeProject := active } := by
  unfold activeOk
  cases active with
  | none => rfl
  | some p => simp [lookup_updateS_isSome]

theorem activeOk_smApproveAction (r : Registry) (b : Bool)
    (h : activeOk r = true) : activeOk (smApproveAction r b).state = true := by
  unfold smApproveAction
  (repeat' split) <;> first
    | exact h
    | (rw [activeOk_mk_updateS]; simp_all [activeOk])

theorem activeOk_smCancel (r : Registry)
    (h : activeOk r = true) : activeOk (smCancel r).state = true := by
  unfold smCancel
  (repeat' split) <;> first
    | exact h
    | (rw [activeOk_mk_updateS]; simp_all [activeOk])

theorem activeOk_smKill (r : Registry) (p : String)
    (h : activeOk r = true) : activeOk (smKill r p).state = true := by
  unfold smKill
  cases hl : r.sessions.lookup p with
  | none => exact h
  | some cs =>
      simp only [activeOk]
      by_cases hap : r.activeProject = some p
      · simp [hap]
      · rw [if_neg hap]
        cases hq : r.activeProject with
        | none => rfl
        | some q =>
            have hqp : q ≠ p := fun hc => hap (by rw [hq, hc])
            show (List.lookup q (deleteS r.sessions p)).isSome = true
            rw [lookup_deleteS_ne r.sessions p q hqp]
            simp only [activeOk, hq] at h
            exact h

theorem activeOk_smRestart (env : Env) (r : Registry) (p : String)
    (h : activeOk r = true) : activeOk (smRestart env r p).state = true := by
  unfold smRestart
  cases hT : (if p = "" then r.activeProject else some p) with
  | none => exact h
  | some target =>
      by_cases hl : (r.sessions.lookup target).isSome
      · simp only [hl, if_true]
        exact activeOk_smOpen env _ target (activeOk_smKill r target h)
      · simp only [hl, if_false]
        exact h

theorem activeOk_runRegOps (env : Env) (r : Registry) (ops : List RegOp)
    (h : activeOk r = true) : activeOk (runRegOps env r ops) = true := by
  induction ops generalizing r with
  | nil => exact h
  | cons op rest ih =>
      cases op with
      | openOp p => exact ih _ (activeOk_smOpen env r p h)
      | relayOp t => exact ih _ (by simpa [applyRegOp, smRelay_state] using h)
      | approveOp b => exact ih _ (activeOk_smApproveAction r b h)
      | cancelOp => exact ih _ (activeOk_smCancel r h)
      | killOp p => exact ih _ (activeOk_smKill r p h)
      | restartOp p => exact ih _ (activeOk_smRestart env r p h)
      | listOp => exact ih _ (by simpa [applyRegOp, smList_state] using h)

/-- **C1** — over every sequence of registry operations (open, relay,
approveAction, cancel, kill, restart, list) from the initial registry, the
active-project pointer is always either empty or a key present in the
sessions map; and on any registry satisfying that invariant, `kill(p)`
clears the pointer exactly when `p` was the active project and leaves it
unchanged otherwise. -/
theorem registry_active_pointer_invariant (env : Env) (ops : List RegOp) :
    activeOk (runRegOps env initRegistry ops) = true ∧
    (∀ r p, activeOk r = true →
      (smKill r p).state.activeProject =
        (if r.activeProject = some p then none else r.activeProject)) := by
  constructor
  · exact activeOk_runRegOps env initRegistry ops rfl
  · intro r p h
    unfold smKill
    cases hl : r.sessions.lookup p with
    | some cs => rfl
    | none =>
        by_cases hap : r.activeProject = some p
        · exfalso
          simp only [activeOk, hap, hl] at h
          simp at h
        · rw [if_neg hap]

/-- Environment where every project directory resolves. -/
def demoEnv : Env :=
  { dirExists := fun _ => true,
    availableProjects :=
      [{ id := "alpha", title := "alpha", description := "d1" },
       { id := "beta", title := "beta", description := "d2" },
       { id := "gamma", title := "gamma", description := "d3" }],
    uptimeSecs := 1, memMB := 100, model := "sonnet" }

/-- A running session (mid-`send`, abort controller live). -/
def demoRunningCS : CS :=
  { initCS with isActive := true, hasAbortController := true }

/-- A running session with an outstanding approval. -/
def demoPendingCS : CS := { demoRunningCS with pendingApproval := true }

/-- Registry with an idle active session "alpha" and a running "beta". -/
def demoRegistry : Registry :=
  { sessions := [("alpha", initCS), ("beta", demoRunningCS)],
    activeProject := some "alpha" }

/-- Registry whose active session "beta" is running with an approval
outstanding. -/
def demoBusyRegistry : Registry :=
  { sessions := [("alpha", initCS), ("beta", demoPendingCS)],
    activeProject := some "beta" }

def demoOps : List RegOp :=
  [RegOp.openOp "alpha", RegOp.openOp "beta", RegOp.relayOp "hello",
   RegOp.killOp "beta", RegOp.listOp]

theorem registry_active_pointer_invariant_witness :
    activeOk (runRegOps demoEnv initRegistry demoOps) = true ∧
    (smKill demoRegistry "alpha").state.activeProject = none ∧
    (smKill demoRegistry "beta").state.activeProject = some "alpha" := by
  refine ⟨(registry_active_pointer_invariant demoEnv demoOps).1, ?_, ?_⟩
  · have h := (registry_active_pointer_invariant demoEnv demoOps).2
      demoRegistry "alpha" (by decide)
    rw [h]; decide
  · have h := (registry_active_pointer_invariant demoEnv demoOps).2
      demoRegistry "beta" (by decide)
    rw [h]; decide

/-- **C5** — `relay(text)`: with no active project it returns the
NoActiveSession message and changes nothing (no session is created, no
send is issued); with the active session RUNNING it returns the
SessionBusy message without invoking `send` (the input is not queued); on
acceptance it sends the immediate acknowledgment, invokes the session's
`send` asynchronously, and returns no response payload. -/
theorem relay_validation_spec (r : Registry) (text : String) :
    (r.activeProject = none →
      smRelay r text =
        { state := r,
          response := some "No active session. Use /open <project> to start one.",
          effects := [] }) ∧
    (∀ p cs, r.activeProject = some p → r.sessions.lookup p = some cs →
      cs.isActive = true →
      smRelay r text =
        { state := r,
          response := some (p ++
            " is still working on the previous message. Wait for it to finish or /cancel."),
          effects := [] }) ∧
    (∀ p cs, r.activeProject = some p → r.sessions.lookup p = some cs →
      cs.isActive = false →
      smRelay r text =
        { state := r, response := none,
          effects := [Effect.sendMessage "_Working on it..._",
                      Effect.sendCall p text] }) := by
  refine ⟨fun h0 => ?_, fun p cs hap hl hbusy => ?_, fun p cs hap hl hidle => ?_⟩
  · unfold smRelay; rw [h0]
  · unfold smRelay; simp [hap, hl, hbusy]
  · unfold smRelay; simp [hap, hl, hidle]

theorem relay_validation_spec_witness :
    initRegistry.activeProject = none ∧
    smRelay initRegistry "hello" =
      { state := initRegistry,
        response := some "No active session. Use /open <project> to start one.",
        effects := [] } ∧
    smRelay demoBusyRegistry "do Y" =
      { state := demoBusyRegistry,
        response := some ("beta" ++
          " is still working on the previous message. Wait for it to finish or /cancel."),
        effects := [] } ∧
    smRelay demoRegistry "do X" =
      { state := demoRegistry, response := none,
        effects := [Effect.sendMessage "_Working on it..._",
                    Effect.sendCall "alpha" "do X"] } :=
  ⟨rfl,
   (relay_validation_spec initRegistry "hello").1 rfl,
   (relay_validation_spec demoBusyRegistry "do Y").2.1 "beta" demoPendingCS
     rfl (by decide) rfl,
   (relay_validation_spec demoRegistry "do X").2.2 "alpha" initCS
     rfl (by decide) rfl⟩

theorem smKill_lookup_self (r : Registry) (p : String) :
    (smKill r p).state.sessions.lookup p = none := by
  unfold smKill
  cases hl : r.sessions.lookup p with
  | none => exact hl
  | some cs => exact lookup_deleteS_self r.sessions p

theorem smOpen_lookup_fresh (env : Env) (r : Registry) (p : String)
    (hdir : env.dirExists (resolveProjectDir p) = true)
    (hl : r.sessions.lookup p = none) :
    (smOpen env r p).state.sessions.lookup p = some initCS := by
  unfold smOpen
  rw [hl]
  simp only [hdir]
  simp [lookup_append_right r.sessions p initCS hl]

/-- **C7** — for a project with a resolvable working directory, `kill(p)`
then `open(p)` — in particular the round trip `open(p); kill(p); open(p)`
— yields a session in the freshly-constructed state, whose backend
resumption token (`_sessionId`) is `null`: nothing is carried over from
the destroyed session.  `restart(p)` (kill followed by open) likewise
recreates the session from scratch, so conversation continuity is
lost. -/
theorem kill_open_fresh_session (env : Env) (r : Registry) (p : String)
    (hdir : env.dirExists (resolveProjectDir p) = true) :
    initCS.sessionId = none ∧
    (smOpen env (smKill r p).state p).state.sessions.lookup p = some initCS ∧
    (smOpen env (smKill (smOpen env r p).state p).state p).state.sessions.lookup p
      = some initCS ∧
    (∀ cs, p ≠ "" → r.sessions.lookup p = some cs →
      (smRestart env r p).state.sessions.lookup p = some initCS) := by
  refine ⟨rfl, ?_, ?_, ?_⟩
  · exact smOpen_lookup_fresh env _ p hdir (smKill_lookup_self r p)
  · exact smOpen_lookup_fresh env _ p hdir
      (smKill_lookup_self (smOpen env r p).state p)
  · intro cs hp hl
    unfold smRestart
    simp only [if_neg hp, hl, Option.isSome_some, if_true]
    exact smOpen_lookup_fresh env _ p hdir (smKill_lookup_self r p)

theorem kill_open_fresh_session_witness :
    demoEnv.dirExists (resolveProjectDir "beta") = true ∧
    (smOpen demoEnv (smKill demoRegistry "beta").state "beta").state.sessions.lookup
      "beta" = some initCS ∧
    (smRestart demoEnv demoRegistry "beta").state.sessions.lookup "beta" =
      some initCS ∧
    initCS.sessionId = none := by
  have h := kill_open_fresh_session demoEnv demoRegistry "beta" rfl
  exact ⟨rfl, h.2.1, h.2.2.2 demoRunningCS (by decide) (by decide), h.1⟩

/-- **C8** — `cancel()` on an IDLE active session is a safe no-op and
idempotent: it returns the same "idle — nothing to cancel" message both
times, leaves the registry unchanged, and (being a total function) never
throws.  When the active session is RUNNING it interrupts it: the stored
session gets the abort signal (when a controller is live) and its
outstanding PendingApproval — if any — is rejected and cleared, releasing
a waiter blocked on the approval.  At the session level, `interrupt()` on
an idle session (no controller, nothing pending) changes nothing. -/
theorem cancel_idempotent_spec (r : Registry) :
    (∀ p cs, r.activeProject = some p → r.sessions.lookup p = some cs →
      cs.isActive = false →
      smCancel r =
        { state := r,
          response := some (p ++ " is idle — nothing to cancel."),
          effects := [] } ∧
      smCancel (smCancel r).state = smCancel r) ∧
    (∀ p cs, r.activeProject = some p → r.sessions.lookup p = some cs →
      cs.isActive = true →
      (smCancel r).response = some ("Cancelling " ++ p ++ "...") ∧
      (smCancel r).state.sessions.lookup p = some (csInterrupt cs) ∧
      (csInterrupt cs).pendingApproval = false ∧
      (cs.hasAbortController = true → (csInterrupt cs).aborted = true)) ∧
    (∀ s : CS, s.hasAbortController = false → s.pendingApproval = false →
      csInterrupt s = s) := by
  refine ⟨fun p cs hap hl hidle => ?_, fun p cs hap hl hrun => ?_,
    fun s hc hp => ?_⟩
  · have h1 : smCancel r =
        { state := r,
          response := some (p ++ " is idle — nothing to cancel."),
          effects := [] } := by
      unfold smCancel
      simp [hap, hl, hidle]
    exact ⟨h1, by rw [h1]; exact h1⟩
  · refine ⟨?_, ?_, csInterrupt_pendingApproval cs,
      fun hctl => csInterrupt_aborted cs hctl⟩
    · unfold smCancel
      simp [hap, hl, hrun]
    · unfold smCancel
      simp [hap, hl, hrun,
        lookup_updateS_self r.sessions p (csInterrupt cs) cs hl]
  · unfold csInterrupt
    simp [hc, hp]

theorem cancel_idempotent_spec_witness :
    (smCancel demoRegistry =
      { state := demoRegistry,
        response := some ("alpha" ++ " is idle — nothing to cancel."),
        effects := [] } ∧
     smCancel (smCancel demoRegistry).state = smCancel demoRegistry) ∧
    ((smCancel demoBusyRegistry).response =
      some ("Cancelling " ++ "beta" ++ "...") ∧
     (smCancel demoBusyRegistry).state.sessions.lookup "beta" =
      some (csInterrupt demoPendingCS) ∧
     (csInterrupt demoPendingCS).pendingApproval = false ∧
     (csInterrupt demoPendingCS).aborted = true) :=
  ⟨(cancel_idempotent_spec demoRegistry).1 "alpha" initCS rfl (by decide) rfl,
   by
    have h := (cancel_idempotent_spec demoBusyRegistry).2.1 "beta" demoPendingCS
      rfl (by decide) rfl
    exact ⟨h.1, h.2.1, h.2.2.1, h.2.2.2 rfl⟩⟩

/-- The comparator passed to `.sort()` in `showProjectList`, read as the
total preorder "a sorts before-or-with b": active sessions strictly first,
then case-insensitive title order (`localeCompare` embedded as the
lexicographic order on the lowercased titles). -/
def projBefore (activeIds : List String) (a b : Project) : Bool :=
  if activeIds.contains a.id = activeIds.contains b.id then
    decide (jsToLower a.title ≤ jsToLower b.title)
  else activeIds.contains a.id

/-- The `.sort(comparator)` call of `showProjectList`.  JS `Array.sort` is
stable and the comparator is a total preorder, so any stable sorting
algorithm produces the same list; insertion sort is stable. -/
def sortProjects (activeIds : List String) (l : List Project) : List Project :=
  List.insertionSort (fun a b => projBefore activeIds a b = true) l

/-- `matched[0]`. -/
def headProj : List Project → Project
  | [] => { id := "", title := "", description := "" }
  | p :: _ => p

/-- The case-insensitive prefix filter of `showProjectList` (its `matched`
list): with a non-empty argument, the projects whose lowercased title
starts with the lowercased argument; otherwise all projects. -/
def prefixMatched (env : Env) (filter : String) : List Project :=
  if filter ≠ "" then
    env.availableProjects.filter
      (fun p => jsStartsWith (jsToLower p.title) (jsToLower filter))
  else env.availableProjects

/-- The per-row description tagging of `showProjectList`. -/
def tagProject (activeIds : List String) (p : Project) : Project :=
  { p with description :=
      if activeIds.contains p.id then "● Active session" else p.description }

/-- The body text of the interactive project list. -/
def listBodyText (filter : String) (total : Nat) : String :=
  if filter ≠ "" ∧ total > 10 then
    toString total ++ " projects match \"" ++ filter ++
      "\" (showing 10). Try a longer prefix."
  else if filter ≠ "" then "Projects matching \"" ++ filter ++ "\":"
  else if total > 10 then
    "Showing 10 of " ++ toString total ++ ". Use /open <prefix> to filter."
  else "Select a project to open:"

/-- `CommandRouter.showProjectList(filter)` (success path of the
interactive send; the delivery-failure plain-text fallback is outside
these claims).  A failing `getAvailableProjects` degrades to an empty
enumeration in the source and is modelled by an empty
`env.availableProjects`. -/
def showProjectList (env : Env) (r : Registry) (filter : String) : OpResult :=
  if env.availableProjects.isEmpty then
    { state := r,
      response := some ("No projects found in " ++ resolveProjectDir ""),
      effects := [] }
  else
    let matched := prefixMatched env filter
    if filter ≠ "" ∧ matched.length = 1 then
      smOpen env r (headProj matched).id
    else if filter ≠ "" ∧ matched.length = 0 then
      match env.availableProjects.find?
          (fun p => jsToLower p.title == jsToLower filter) with
      | some ex => smOpen env r ex.id
      | none =>
          { state := r,
            response := some ("No projects matching \"" ++ filter ++
              "\". Use /open to browse."),
            effects := [] }
    else
      let activeIds := r.sessions.map Prod.fst
      let display := ((sortProjects activeIds matched).map
        (tagProject activeIds)).take 10
      { state := r, response := none,
        effects := [Effect.sendListE (listBodyText filter matched.length)
          display] }

/-- `CommandRouter.showKillList()` (success path). -/
def showKillList (r : Registry) : OpResult :=
  if r.sessions.isEmpty then
    { state := r,
      response := some "No active sessions to kill. Use /list to see all sessions.",
      effects := [] }
  else
    { state := r, response := none,
      effects := [Effect.sendListE "Select a session to kill:"
        (r.sessions.map (fun e =>
          { id := "kill_" ++ e.1, title := e.1,
            description :=
              if r.activeProject = some e.1 then "Active" else "Idle" }))] }

/-- `CommandRouter.showRestartList()` (success path). -/
def showRestartList (r : Registry) : OpResult :=
  if r.sessions.isEmpty then
    { state := r,
      response := some "No active sessions to restart. Use /list to see all sessions.",
      effects := [] }
  else
    { state := r, response := none,
      effects := [Effect.sendListE "Select a session to restart:"
        (r.sessions.map (fun e =>
          { id := "restart_" ++ e.1, title := e.1,
            description :=
              if r.activeProject = some e.1 then "Active" else "Idle" }))] }

/-- The `/help` text of `CommandRouter.handleCommand`. -/
def helpText : String :=
  String.intercalate "\n"
    ["*wa-claude commands:*\n",
     "/open — Project picker (or /open <prefix> to filter)",
     "/kill — Show session menu (or /kill <project> for direct)",
     "/restart — Show session menu (or /restart <project> for direct)",
     "/list — Show all active sessions",
     "/status — System health info",
     "/full — Resend last output untruncated",
     "/cancel — Interrupt current Claude query",
     "/help — This message",
     "",
     "*Interactive features:*",
     "• Action approvals show [Approve] [Deny] buttons",
     "• /open shows top 10 (active sessions first); /open t filters by prefix",
     "• /kill and /restart show active session menus",
     "",
     "Any other text is sent to the active Claude Code session."]

/-- `CommandRouter.handleCommand(text)`: tokenize on whitespace, lowercase
the command word, dispatch; unrecognized commands pass through verbatim to
`relay`. -/
def handleCommand (env : Env) (r : Registry) (text : String) : OpResult :=
  let parts := splitWs text
  let cmd := jsToLower (parts.headD "")
  let arg := jsTrim (String.intercalate " " parts.tail)
  if cmd = "/open" then showProjectList env r arg
  else if cmd = "/kill" then
    if arg = "" then showKillList r else smKill r arg
  else if cmd = "/restart" then
    if arg = "" then showRestartList r else smRestart env r arg
  else if cmd = "/list" then smList r
  else if cmd = "/status" then smStatus env r
  else if cmd = "/full" then smGetFullOutput r
  else if cmd = "/yes" ∨ cmd = "/approve" then smApproveAction r true
  else if cmd = "/no" ∨ cmd = "/deny" then smApproveAction r false
  else if cmd = "/cancel" then smCancel r
  else if cmd = "/help" then
    { state := r, response := some helpText, effects := [] }
  else smRelay r text

/-- `CommandRouter.handleButtonReply(buttonId)`: the unscoped `approve` and
`deny` identifiers resolve the active session's approval; `kill_<p>` and
`restart_<p>` are scoped by the embedded project id; anything else is a
project selection and opens that project. -/
def handleButtonReply (env : Env) (r : Registry) (buttonId : String) :
    OpResult :=
  if buttonId = "approve" then smApproveAction r true
  else if buttonId = "deny" then smApproveAction r false
  else if jsStartsWith buttonId "kill_" then smKill r (jsDrop buttonId 5)
  else if jsStartsWith buttonId "restart_" then
    smRestart env r (jsDrop buttonId 8)
  else smOpen env r buttonId

/-- `CommandRouter.handle(text, buttonReplyId)` (`trimmed = text.trim()` is
inlined). -/
def routerHandle (env : Env) (r : Registry) (text : String)
    (buttonReplyId : Option String) : OpResult :=
  match buttonReplyId with
  | some bid => handleButtonReply env r bid
  | none =>
      if jsStartsWith (jsTrim text) "/" then handleCommand env r (jsTrim text)
      else smRelay r (jsTrim text)

theorem smOpen_no_resolve (env : Env) (r : Registry) (p q : String)
    (b : Bool) : Effect.resolveCall q b ∉ (smOpen env r p).effects := by
  unfold smOpen
  dsimp only
  (repeat' split) <;> simp

theorem smRelay_no_resolve (r : Registry) (t q : String) (b : Bool) :
    Effect.resolveCall q b ∉ (smRelay r t).effects := by
  unfold smRelay
  (repeat' split) <;> simp

theorem smCancel_no_resolve (r : Registry) (q : String) (b : Bool) :
    Effect.resolveCall q b ∉ (smCancel r).effects := by
  unfold smCancel
  (repeat' split) <;> simp

theorem smKill_no_resolve (r : Registry) (p q : String) (b : Bool) :
    Effect.resolveCall q b ∉ (smKill r p).effects := by
  unfold smKill
  (repeat' split) <;> simp

theorem smRestart_no_resolve (env : Env) (r : Registry) (p q : String)
    (b : Bool) : Effect.resolveCall q b ∉ (smRestart env r p).effects := by
  unfold smRestart
  (repeat' split) <;>
    simp [smKill_no_resolve r _ q b, smOpen_no_resolve env _ _ q b]

theorem smList_no_resolve (r : Registry) (q : String) (b : Bool) :
    Effect.resolveCall q b ∉ (smList r).effects := by
  unfold smList
  (repeat' split) <;> simp

theorem smGetFullOutput_no_resolve (r : Registry) (q : String) (b : Bool) :
    Effect.resolveCall q b ∉ (smGetFullOutput r).effects := by
  unfold smGetFullOutput
  (repeat' split) <;> simp

theorem smStatus_no_resolve (env : Env) (r : Registry) (q : String)
    (b : Bool) : Effect.resolveCall q b ∉ (smStatus env r).effects := by
  unfold smStatus
  simp

theorem showProjectList_no_resolve (env : Env) (r : Registry) (f q : String)
    (b : Bool) : Effect.resolveCall q b ∉ (showProjectList env r f).effects := by
  unfold showProjectList
  dsimp only
  (repeat' split) <;> first
    | exact smOpen_no_resolve env r _ q b
    | simp

theorem showKillList_no_resolve (r : Registry) (q : String) (b : Bool) :
    Effect.resolveCall q b ∉ (showKillList r).effects := by
  unfold showKillList
  (repeat' split) <;> simp

theorem showRestartList_no_resolve (r : Registry) (q : String) (b : Bool) :
    Effect.resolveCall q b ∉ (showRestartList r).effects := by
  unfold showRestartList
  (repeat' split) <;> simp

theorem smApproveAction_scoped (r : Registry) (b' : Bool) (q : String)
    (b : Bool) (h : Effect.resolveCall q b ∈ (smApproveAction r b').effects) :
    r.activeProject = some q := by
  unfold smApproveAction at h
  cases hap : r.activeProject with
  | none => simp [hap] at h
  | some p =>
      simp only [hap] at h
      cases hl : r.sessions.lookup p with
      | none => simp [hl] at h
      | some cs =>
          simp only [hl] at h
          simp at h
          rw [h.1]

theorem handleCommand_scoped (env : Env) (r : Registry) (text q : String)
    (b : Bool)
    (h : Effect.resolveCall q b ∈ (handleCommand env r text).effects) :
    r.activeProject = some q := by
  unfold handleCommand at h
  dsimp only at h
  (repeat' split at h) <;> first
    | exact smApproveAction_scoped r true q b h
    | exact smApproveAction_scoped r false q b h
    | exact absurd h (showProjectList_no_resolve env r _ q b)
    | exact absurd h (showKillList_no_resolve r q b)
    | exact absurd h (showRestartList_no_resolve r q b)
    | exact absurd h (smKill_no_resolve r _ q b)
    | exact absurd h (smRestart_no_resolve env r _ q b)
    | exact absurd h (smList_no_resolve r q b)
    | exact absurd h (smCancel_no_resolve r q b)
    | exact absurd h (smGetFullOutput_no_resolve r q b)
    | exact absurd h (smStatus_no_resolve env r q b)
    | exact absurd h (smRelay_no_resolve r _ q b)

/-- **C10** — approval resolution is reachable only for the active
project: for every inbound router input (any text, any button id), every
`resolvePendingApproval` invocation it causes targets the active project;
and when the active session has no pending approval, `approveAction`
reports "No pending approval to respond to." while every other session's
map entry — in particular one holding an outstanding approval — is left
exactly as it was. -/
theorem approval_resolution_active_only (env : Env) (r : Registry)
    (text : String) (buttonReplyId : Option String) :
    (∀ q b, Effect.resolveCall q b ∈
        (routerHandle env r text buttonReplyId).effects →
      r.activeProject = some q) ∧
    (∀ p cs b, r.activeProject = some p → r.sessions.lookup p = some cs →
      cs.pendingApproval = false →
      (smApproveAction r b).response =
        some "No pending approval to respond to." ∧
      (∀ q, q ≠ p →
        (smApproveAction r b).state.sessions.lookup q =
          r.sessions.lookup q)) := by
  constructor
  · intro q b h
    unfold routerHandle handleButtonReply at h
    (repeat' split at h) <;> first
      | exact handleCommand_scoped env r _ q b h
      | exact smApproveAction_scoped r true q b h
      | exact smApproveAction_scoped r false q b h
      | exact absurd h (smKill_no_resolve r _ q b)
      | exact absurd h (smRestart_no_resolve env r _ q b)
      | exact absurd h (smOpen_no_resolve env r _ q b)
      | exact absurd h (smRelay_no_resolve r _ q b)
  · intro p cs b hap hl hpend
    have hres : csResolvePendingApproval cs = (cs, false) := by
      unfold csResolvePendingApproval
      simp [hpend]
    constructor
    · unfold smApproveAction
      simp [hap, hl, hres]
    · intro q hq
      unfold smApproveAction
      simp only [hap, hl, hres]
      exact lookup_updateS_ne r.sessions p q cs hq

theorem approval_resolution_active_only_witness :
    (routerHandle demoEnv demoBusyRegistry "/yes" none).effects =
      [Effect.resolveCall "beta" true] ∧
    demoBusyRegistry.activeProject = some "beta" ∧
    (smApproveAction demoRegistry true).response =
      some "No pending approval to respond to." ∧
    (smApproveAction demoRegistry true).state.sessions.lookup "beta" =
      demoRegistry.sessions.lookup "beta" := by
  refine ⟨by decide, ?_, ?_, ?_⟩
  · exact (approval_resolution_active_only demoEnv demoBusyRegistry "/yes"
      none).1 "beta" true (by decide)
  · exact ((approval_resolution_active_only demoEnv demoRegistry "" none).2
      "alpha" initCS true rfl (by decide) rfl).1
  · exact ((approval_resolution_active_only demoEnv demoRegistry "" none).2
      "alpha" initCS true rfl (by decide) rfl).2 "beta" (by decide)

theorem projBefore_total (ids : List String) (a b : Project) :
    projBefore ids a b = true ∨ projBefore ids b a = true := by
  unfold projBefore
  cases ha : ids.contains a.id <;> cases hb : ids.contains b.id <;>
  first
    | (left
       rw [if_neg (fun hx => Bool.noConfusion hx)]
       try rfl
       done)
    | (right
       rw [if_neg (fun hx => Bool.noConfusion hx)]
       try rfl
       done)
    | (rw [if_pos rfl, if_pos rfl]
       simp only [decide_eq_true_eq]
       exact le_total _ _)

theorem projBefore_trans (ids : List String) (a b c : Project)
    (hab : projBefore ids a b = true) (hbc : projBefore ids b c = true) :
    projBefore ids a c = true := by
  unfold projBefore at hab hbc ⊢
  cases ha : ids.contains a.id <;> cases hb : ids.contains b.id <;>
    cases hc : ids.contains c.id <;>
    rw [ha, hb] at hab <;> rw [hb, hc] at hbc <;>
  first
    | (rw [if_neg (fun hx => Bool.noConfusion hx)] at hbc
       exact Bool.noConfusion hbc)
    | (rw [if_neg (fun hx => Bool.noConfusion hx)] at hab
       exact Bool.noConfusion hab)
    | (rw [if_neg (fun hx => Bool.noConfusion hx)]
       done)
    | (rw [if_pos rfl] at hab hbc ⊢
       simp only [decide_eq_true_eq] at hab hbc ⊢
       exact le_trans hab hbc)

/-- **C9** — `/open` with a non-empty argument: the listing is filtered by
the argument as a case-insensitive prefix match on the project titles;
exactly one match short-circuits directly to `open` (no listing is sent);
zero matches run the exact case-insensitive fallback — which can never
succeed, since an exact match is a prefix match — and report that nothing
matched; two or more matches send the interactive listing, whose rows are
(the first ten of) a permutation of the matched projects ordered by the
comparator: active sessions before idle ones and otherwise alphabetically
case-insensitively. -/
theorem open_filter_spec (env : Env) (r : Registry) (filter : String)
    (hf : filter ≠ "") (hne : env.availableProjects.isEmpty = false) :
    ((prefixMatched env filter).length = 1 →
      showProjectList env r filter =
        smOpen env r (headProj (prefixMatched env filter)).id) ∧
    ((prefixMatched env filter).length = 0 →
      env.availableProjects.find?
          (fun p => jsToLower p.title == jsToLower filter) = none ∧
      showProjectList env r filter =
        { state := r,
          response := some ("No projects matching \"" ++ filter ++
            "\". Use /open to browse."),
          effects := [] }) ∧
    (2 ≤ (prefixMatched env filter).length →
      showProjectList env r filter =
        { state := r, response := none,
          effects := [Effect.sendListE
            (listBodyText filter (prefixMatched env filter).length)
            (((sortProjects (r.sessions.map Prod.fst)
                  (prefixMatched env filter)).map
                (tagProject (r.sessions.map Prod.fst))).take 10)] } ∧
      ((sortProjects (r.sessions.map Prod.fst)
          (prefixMatched env filter)).Perm (prefixMatched env filter)) ∧
      List.Sorted (fun a b => projBefore (r.sessions.map Prod.fst) a b = true)
        (sortProjects (r.sessions.map Prod.fst)
          (prefixMatched env filter))) := by
  refine ⟨fun h1 => ?_, fun h0 => ?_, fun h2 => ?_⟩
  · unfold showProjectList
    simp [hne, hf, h1]
  · have hnil : prefixMatched env filter = [] := List.length_eq_zero.mp h0
    have hfind : env.availableProjects.find?
        (fun p => jsToLower p.title == jsToLower filter) = none := by
      apply List.find?_eq_none.mpr
      intro x hx hpx
      have hxmem : x ∈ prefixMatched env filter := by
        unfold prefixMatched
        rw [if_pos hf]
        apply List.mem_filter.mpr
        refine ⟨hx, ?_⟩
        have : jsToLower x.title = jsToLower filter := by
          simpa using hpx
        unfold jsStartsWith
        rw [this]
        simp
      rw [hnil] at hxmem
      simp at hxmem
    refine ⟨hfind, ?_⟩
    unfold showProjectList
    simp [hne, hf, h0, hfind]
  · have hn1 : (prefixMatched env filter).length ≠ 1 := by omega
    have hn0 : (prefixMatched env filter).length ≠ 0 := by omega
    refine ⟨?_, List.perm_insertionSort _ _, ?_⟩
    · unfold showProjectList
      simp [hne, hf, hn1, hn0]
    · haveI : IsTotal Project
          (fun a b => projBefore (r.sessions.map Prod.fst) a b = true) :=
        ⟨fun a b => projBefore_total _ a b⟩
      haveI : IsTrans Project
          (fun a b => projBefore (r.sessions.map Prod.fst) a b = true) :=
        ⟨fun a b c => projBefore_trans _ a b c⟩
      exact List.sorted_insertionSort _ _

/-- Environment whose project titles exercise the `/open t` filter. -/
def filterEnv : Env :=
  { dirExists := fun _ => true,
    availableProjects :=
      [{ id := "tools", title := "tools", description := "" },
       { id := "testbed", title := "testbed", description := "" },
       { id := "wa-bridge", title := "wa-bridge", description := "" }],
    uptimeSecs := 0, memMB := 0, model := "sonnet" }

theorem open_filter_spec_witness :
    (prefixMatched filterEnv "t").length = 2 ∧
    (prefixMatched filterEnv "wa").length = 1 ∧
    showProjectList filterEnv initRegistry "wa" =
      smOpen filterEnv initRegistry
        (headProj (prefixMatched filterEnv "wa")).id ∧
    (prefixMatched filterEnv "zzz").length = 0 ∧
    showProjectList filterEnv initRegistry "zzz" =
      { state := initRegistry,
        response := some ("No projects matching \"" ++ "zzz" ++
          "\". Use /open to browse."),
        effects := [] } ∧
    ((sortProjects ([] : List String) (prefixMatched filterEnv "t")).Perm
      (prefixMatched filterEnv "t")) := by
  have h1 := open_filter_spec filterEnv initRegistry "wa" (by decide) rfl
  have h0 := open_filter_spec filterEnv initRegistry "zzz" (by decide) rfl
  have h2 := open_filter_spec filterEnv initRegistry "t" (by decide) rfl
  refine ⟨by decide, by decide, h1.1 (by decide), by decide,
    (h0.2.1 (by decide)).2, ?_⟩
  have := (h2.2.2 (by decide)).2.1
  simpa [initRegistry] using this

end WaClaude
